import Mathlib

/-!
Verification of the Cluster State Aggregation & Topology Construction layer
of the cluster-visualization repository, as a shallow embedding in Lean 4.

The frontend sources (`ClusterTopology.tsx`, `NodeDetail.tsx`, `App.tsx`,
`types.ts`) are embedded directly.  The Python backend
(`cluster_analyzer.py`, `api.py`) is referenced by the repository's README
and start scripts but its source is not part of the repository snapshot;
the components it implements (snapshot aggregator, role classifier,
metrics merger, detail resolver) are modelled from the specification text,
each such definition marked `Modelled from the spec:` in its doc comment.
-/

/-! ## Data model (from `src/frontend/src/types.ts`) -/

/-- `NodeAddress` from `types.ts`: a network address of a node. -/
structure NodeAddress where
  type : String
  address : String
  deriving Repr, DecidableEq

/-- `NodeInfo` from `types.ts`: system information of a node. -/
structure NodeInfo where
  os : String
  architecture : String
  kernel : String
  container_runtime : String
  kubelet_version : String
  deriving Repr, DecidableEq

/-- `ResourceInfo` from `types.ts`: opaque quantity strings. -/
structure ResourceInfo where
  cpu : String
  memory : String
  pods : Option String
  deriving Repr, DecidableEq

/-- `NodeMetrics` from `types.ts`: live usage strings. -/
structure NodeMetrics where
  cpu : String
  memory : String
  deriving Repr, DecidableEq

/-- `Container` from `types.ts`. -/
structure Container where
  name : String
  image : String
  ready : Bool
  deriving Repr, DecidableEq

/-- `Pod` from `types.ts`.  The TypeScript field `namespace` is a Lean
keyword and is rendered here as `nspace`. -/
structure Pod where
  name : String
  nspace : String
  uid : String
  node : String
  status : String
  ip : String
  labels : List (String × String)
  containers : List Container
  restart_count : Nat
  deriving Repr, DecidableEq

/-- `Node` from `types.ts`.  `labels` (a TS `Record<string, string>`) is
embedded as an association list; `metrics` and `pods_details` are the
optional fields. -/
structure Node where
  name : String
  uid : String
  labels : List (String × String)
  role : String
  status : String
  capacity : ResourceInfo
  allocatable : ResourceInfo
  info : NodeInfo
  addresses : List NodeAddress
  pods_on_node : Nat
  metrics : Option NodeMetrics
  pods_details : Option (List Pod)
  deriving Repr, DecidableEq

/-- `Namespace` from `types.ts`. -/
structure Namespace where
  name : String
  uid : String
  status : String
  labels : List (String × String)
  creation_timestamp : Option String
  deriving Repr, DecidableEq

/-- `Deployment` from `types.ts`. -/
structure Deployment where
  name : String
  nspace : String
  uid : String
  replicas : Nat
  available_replicas : Nat
  ready_replicas : Nat
  labels : List (String × String)
  deriving Repr, DecidableEq

/-- `Service` from `types.ts` (ports elided to strings, unused by any claim). -/
structure Service where
  name : String
  nspace : String
  uid : String
  type : String
  cluster_ip : String
  labels : List (String × String)
  deriving Repr, DecidableEq

/-! ## Topology graph builder (from `src/frontend/src/components/ClusterTopology.tsx`) -/

/-- A vertex handed to vis-network (`visNodes` entry in
`ClusterTopology.tsx`): `id` is the node name, `label` the three-line
text, `background` the role/status colour, `level` the hierarchy level. -/
structure VisNode where
  id : String
  label : String
  background : String
  level : Nat
  deriving Repr, DecidableEq

/-- An edge handed to vis-network (`visEdges` entry in
`ClusterTopology.tsx`); `from`/`to` are Lean keywords, rendered `efrom`/`eto`. -/
structure VisEdge where
  efrom : String
  eto : String
  deriving Repr, DecidableEq

/-- `ClusterTopology.tsx` line 59: `nodes.filter(n => n.role === 'master')`. -/
def masterNodes (nodes : List Node) : List Node :=
  nodes.filter (fun n => n.role == "master")

/-- `ClusterTopology.tsx` line 60: `nodes.filter(n => n.role === 'worker')`. -/
def workerNodes (nodes : List Node) : List Node :=
  nodes.filter (fun n => n.role == "worker")

/-- One entry of the `visNodes` map in `ClusterTopology.tsx` (lines 63-115):
id from the node name, label from name/role/pod count, colour from role and
status, level 0 for masters and 1 otherwise. -/
def mkVisNode (node : Node) : VisNode :=
  let isMaster := node.role == "master"
  { id := node.name
    label := node.name ++ "\n" ++ node.role.toUpper ++ "\n" ++
      toString node.pods_on_node ++ " pods"
    background :=
      if isMaster then
        if node.status == "Ready" then "#2196f3" else "#f44336"
      else
        if node.status == "Ready" then "#4caf50" else "#f44336"
    level := if isMaster then 0 else 1 }

/-- `ClusterTopology.tsx` lines 63-115: one vis vertex per input node. -/
def visNodes (nodes : List Node) : List VisNode :=
  nodes.map mkVisNode

/-- The worker chain of `ClusterTopology.tsx` lines 142-155: for
`i = 0 .. |W|-2`, an edge from `W[i]` to `W[i+1]`. -/
def chainEdges : List Node → List VisEdge
  | w1 :: w2 :: rest => { efrom := w1.name, eto := w2.name } :: chainEdges (w2 :: rest)
  | _ => []

/-- `ClusterTopology.tsx` lines 117-155: the edge list.  If masters and
workers both exist, one edge from every master to every worker (nested
forEach); else if no masters and more than one worker, the worker chain;
else no edges. -/
def visEdges (nodes : List Node) : List VisEdge :=
  let M := masterNodes nodes
  let W := workerNodes nodes
  if 0 < M.length ∧ 0 < W.length then
    M.flatMap (fun m => W.map (fun w => { efrom := m.name, eto := w.name }))
  else if M.length = 0 ∧ 1 < W.length then
    chainEdges W
  else []

/-- The whole graph-building step of `ClusterTopology.tsx` (lines 62-155):
the vertex list and the edge list derived from one node list. -/
def buildGraph (nodes : List Node) : List VisNode × List VisEdge :=
  (visNodes nodes, visEdges nodes)

/-! ## Helper lemmas about the edge construction -/

lemma mem_masterNodes {nodes : List Node} {n : Node} :
    n ∈ masterNodes nodes ↔ n ∈ nodes ∧ n.role = "master" := by
  simp [masterNodes, List.mem_filter]

lemma mem_workerNodes {nodes : List Node} {n : Node} :
    n ∈ workerNodes nodes ↔ n ∈ nodes ∧ n.role = "worker" := by
  simp [workerNodes, List.mem_filter]

lemma names_nodup_filter (p : Node → Bool) {nodes : List Node}
    (h : (nodes.map Node.name).Nodup) :
    ((nodes.filter p).map Node.name).Nodup :=
  List.Nodup.sublist (List.Sublist.map Node.name (List.filter_sublist nodes)) h

/-- The master-to-worker product case of the edge list, in closed form. -/
lemma visEdges_case_mw {nodes : List Node}
    (hm : 0 < (masterNodes nodes).length) (hw : 0 < (workerNodes nodes).length) :
    visEdges nodes = (masterNodes nodes).flatMap
      (fun m => (workerNodes nodes).map
        (fun w => { efrom := m.name, eto := w.name })) := by
  simp only [visEdges]
  rw [if_pos ⟨hm, hw⟩]

/-- The worker-chain case of the edge list, in closed form. -/
lemma visEdges_case_chain {nodes : List Node}
    (hm : (masterNodes nodes).length = 0) (hw : 1 < (workerNodes nodes).length) :
    visEdges nodes = chainEdges (workerNodes nodes) := by
  simp only [visEdges]
  rw [if_neg (by omega), if_pos ⟨hm, hw⟩]

/-- The degenerate case of the edge list: no edges. -/
lemma visEdges_case_none {nodes : List Node}
    (h1 : ¬(0 < (masterNodes nodes).length ∧ 0 < (workerNodes nodes).length))
    (h2 : ¬((masterNodes nodes).length = 0 ∧ 1 < (workerNodes nodes).length)) :
    visEdges nodes = [] := by
  simp only [visEdges]
  rw [if_neg h1, if_neg h2]

lemma edgeProduct_length (ms ws : List Node) :
    ((ms.flatMap fun m => ws.map fun w =>
        VisEdge.mk m.name w.name)).length = ms.length * ws.length := by
  induction ms with
  | nil => simp
  | cons a t ih => simp [List.flatMap_cons, ih, Nat.succ_mul, Nat.add_comm]

lemma mem_edgeProduct {ms ws : List Node} {e : VisEdge} :
    e ∈ (ms.flatMap fun m => ws.map fun w => VisEdge.mk m.name w.name)
      ↔ ∃ m ∈ ms, ∃ w ∈ ws, e = VisEdge.mk m.name w.name := by
  simp only [List.mem_flatMap, List.mem_map]
  constructor
  · rintro ⟨m, hm, w, hw, rfl⟩; exact ⟨m, hm, w, hw, rfl⟩
  · rintro ⟨m, hm, w, hw, rfl⟩; exact ⟨m, hm, w, hw, rfl⟩

lemma edgeProduct_nodup {ms ws : List Node}
    (hm : (ms.map Node.name).Nodup) (hw : (ws.map Node.name).Nodup) :
    ((ms.flatMap fun m => ws.map fun w => VisEdge.mk m.name w.name)).Nodup := by
  induction ms with
  | nil => simp
  | cons a t ih =>
    rw [List.map_cons, List.nodup_cons] at hm
    rw [List.flatMap_cons]
    refine List.Nodup.append ?_ (ih hm.2) ?_
    · have : ws.map (fun w => VisEdge.mk a.name w.name)
          = (ws.map Node.name).map (fun s => VisEdge.mk a.name s) := by
        simp [List.map_map]
      rw [this]
      exact List.Nodup.map (fun x y hxy => by
        simpa using congrArg VisEdge.eto hxy) hw
    · intro e he1 he2
      rcases List.mem_map.mp he1 with ⟨w, _, rfl⟩
      rcases mem_edgeProduct.mp he2 with ⟨m, hmt, w2, _, heq⟩
      have : a.name = m.name := congrArg VisEdge.efrom heq
      exact hm.1 (this ▸ List.mem_map_of_mem Node.name hmt)

lemma chainEdges_eq_zip (l : List Node) :
    chainEdges l = (l.zip l.tail).map
      (fun p => VisEdge.mk p.1.name p.2.name) := by
  induction l with
  | nil => rfl
  | cons a t ih =>
    cases t with
    | nil => rfl
    | cons b t' => simp [chainEdges, ih]

lemma chainEdges_length (l : List Node) : (chainEdges l).length = l.length - 1 := by
  induction l with
  | nil => rfl
  | cons a t ih =>
    cases t with
    | nil => rfl
    | cons b t' =>
      simp only [chainEdges, List.length_cons] at ih ⊢
      omega

lemma chainEdges_ne : ∀ (l : List Node), (l.map Node.name).Nodup →
    ∀ e ∈ chainEdges l, e.efrom ≠ e.eto := by
  intro l
  induction l with
  | nil => intro _ e he; simp [chainEdges] at he
  | cons a t ih =>
    intro hn e he
    cases t with
    | nil => simp [chainEdges] at he
    | cons b t' =>
      rw [List.map_cons, List.nodup_cons] at hn
      simp only [chainEdges, List.mem_cons] at he
      rcases he with rfl | he
      · intro h
        have h' : a.name = b.name := h
        exact hn.1 (h' ▸ List.mem_map_of_mem Node.name (List.mem_cons_self b t'))
      · exact ih hn.2 e he

lemma chainEdges_endpoints : ∀ (l : List Node), ∀ e ∈ chainEdges l,
    (∃ x ∈ l, e.efrom = x.name) ∧ (∃ y ∈ l, e.eto = y.name) := by
  intro l
  induction l with
  | nil => intro e he; simp [chainEdges] at he
  | cons a t ih =>
    intro e he
    cases t with
    | nil => simp [chainEdges] at he
    | cons b t' =>
      simp only [chainEdges, List.mem_cons] at he
      rcases he with rfl | he
      · exact ⟨⟨a, by simp, rfl⟩, ⟨b, by simp, rfl⟩⟩
      · rcases ih e he with ⟨⟨x, hx, hex⟩, ⟨y, hy, hey⟩⟩
        exact ⟨⟨x, List.mem_cons_of_mem a hx, hex⟩,
               ⟨y, List.mem_cons_of_mem a hy, hey⟩⟩

/-- Every edge endpoint is the name of a node whose role is `master` or
`worker`; the target end is always a worker's name. -/
lemma visEdges_endpoint_roles (nodes : List Node) :
    ∀ e ∈ visEdges nodes,
      (∃ x ∈ nodes, (x.role = "master" ∨ x.role = "worker") ∧ e.efrom = x.name)
      ∧ (∃ y ∈ nodes, y.role = "worker" ∧ e.eto = y.name) := by
  intro e he
  by_cases h1 : 0 < (masterNodes nodes).length ∧ 0 < (workerNodes nodes).length
  · rw [visEdges_case_mw h1.1 h1.2] at he
    rcases mem_edgeProduct.mp he with ⟨m, hm, w, hw, rfl⟩
    rcases mem_masterNodes.mp hm with ⟨hmn, hmr⟩
    rcases mem_workerNodes.mp hw with ⟨hwn, hwr⟩
    exact ⟨⟨m, hmn, Or.inl hmr, rfl⟩, ⟨w, hwn, hwr, rfl⟩⟩
  · by_cases h2 : (masterNodes nodes).length = 0 ∧ 1 < (workerNodes nodes).length
    · rw [visEdges_case_chain h2.1 h2.2] at he
      rcases chainEdges_endpoints _ e he with ⟨⟨x, hx, hex⟩, ⟨y, hy, hey⟩⟩
      rcases mem_workerNodes.mp hx with ⟨hxn, hxr⟩
      rcases mem_workerNodes.mp hy with ⟨hyn, hyr⟩
      exact ⟨⟨x, hxn, Or.inr hxr, hex⟩, ⟨y, hyn, hyr, hey⟩⟩
    · rw [visEdges_case_none h1 h2] at he
      simp at he

/-! ## Concrete sample nodes for witnesses -/

/-- A concrete node record with the given name and role, used as witness
input. -/
def mkSample (nm role : String) : Node :=
  { name := nm, uid := "uid-" ++ nm, labels := [], role := role,
    status := "Ready",
    capacity := { cpu := "4", memory := "8Gi", pods := some "110" },
    allocatable := { cpu := "4", memory := "8Gi", pods := some "110" },
    info := { os := "linux", architecture := "amd64", kernel := "5.10",
              container_runtime := "containerd", kubelet_version := "v1.29" },
    addresses := [], pods_on_node := 0, metrics := none, pods_details := none }

def sampleMaster : Node := mkSample "m1" "master"

def sampleWorker1 : Node := mkSample "w1" "worker"

def sampleWorker2 : Node := mkSample "w2" "worker"

def sampleOther : Node := mkSample "x1" ""

/-! ## Claim theorems about the topology graph builder -/

/-- C1: for every list of nodes (with distinct names, per the data model's
identity invariant), the edge set follows the three-case rule: with masters
and workers both present, exactly one edge from every master to every
worker, `|M|*|W|` edges without duplicates; with no masters and more than
one worker, the `|W|-1`-edge linear chain over consecutive workers in input
order; in every other case, no edges. -/
theorem visEdges_three_case_rule (nodes : List Node)
    (hname : (nodes.map Node.name).Nodup) :
    (0 < (masterNodes nodes).length → 0 < (workerNodes nodes).length →
      (visEdges nodes).length
          = (masterNodes nodes).length * (workerNodes nodes).length
      ∧ (visEdges nodes).Nodup
      ∧ (∀ e, e ∈ visEdges nodes ↔ ∃ m ∈ masterNodes nodes,
            ∃ w ∈ workerNodes nodes, e = VisEdge.mk m.name w.name))
    ∧ ((masterNodes nodes).length = 0 → 1 < (workerNodes nodes).length →
      visEdges nodes = ((workerNodes nodes).zip (workerNodes nodes).tail).map
          (fun p => VisEdge.mk p.1.name p.2.name)
      ∧ (visEdges nodes).length = (workerNodes nodes).length - 1)
    ∧ (¬(0 < (masterNodes nodes).length ∧ 0 < (workerNodes nodes).length) →
       ¬((masterNodes nodes).length = 0 ∧ 1 < (workerNodes nodes).length) →
      visEdges nodes = []) := by
  refine ⟨fun hm hw => ?_, fun hm hw => ?_, fun h1 h2 => visEdges_case_none h1 h2⟩
  · rw [visEdges_case_mw hm hw]
    exact ⟨edgeProduct_length _ _,
      edgeProduct_nodup (names_nodup_filter _ hname) (names_nodup_filter _ hname),
      fun e => mem_edgeProduct⟩
  · rw [visEdges_case_chain hm hw]
    exact ⟨chainEdges_eq_zip _, by rw [chainEdges_length]⟩

/-- C1 witness: one master and two workers with distinct names give two
edges, one from the master to each worker. -/
theorem visEdges_three_case_rule_witness :
    (visEdges [sampleMaster, sampleWorker1, sampleWorker2]).length = 2 := by
  have h := (visEdges_three_case_rule [sampleMaster, sampleWorker1, sampleWorker2]
    (by decide)).1 (by decide) (by decide)
  exact h.1.trans (by decide)

/-- C2: with pairwise-distinct node names there are no self-edges; when a
master exists every edge goes from a master-tier node to a worker-tier
node; when no master exists the edges are exactly the worker chain. -/
theorem visEdges_tier_invariant (nodes : List Node)
    (hname : (nodes.map Node.name).Nodup) :
    (∀ e ∈ visEdges nodes, e.efrom ≠ e.eto)
    ∧ (masterNodes nodes ≠ [] →
        ∀ e ∈ visEdges nodes,
          (∃ m ∈ nodes, m.role = "master" ∧ e.efrom = m.name)
          ∧ (∃ w ∈ nodes, w.role = "worker" ∧ e.eto = w.name))
    ∧ (masterNodes nodes = [] → visEdges nodes = []
        ∨ visEdges nodes = chainEdges (workerNodes nodes)) := by
  refine ⟨?_, ?_, ?_⟩
  · intro e he
    by_cases h1 : 0 < (masterNodes nodes).length ∧ 0 < (workerNodes nodes).length
    · rw [visEdges_case_mw h1.1 h1.2] at he
      rcases mem_edgeProduct.mp he with ⟨m, hm, w, hw, rfl⟩
      rcases mem_masterNodes.mp hm with ⟨hmn, hmr⟩
      rcases mem_workerNodes.mp hw with ⟨hwn, hwr⟩
      intro h
      have h' : m.name = w.name := h
      have : m = w := List.inj_on_of_nodup_map hname hmn hwn h'
      rw [this, hwr] at hmr
      exact absurd hmr (by decide)
    · by_cases h2 : (masterNodes nodes).length = 0 ∧ 1 < (workerNodes nodes).length
      · rw [visEdges_case_chain h2.1 h2.2] at he
        exact chainEdges_ne _ (names_nodup_filter _ hname) e he
      · rw [visEdges_case_none h1 h2] at he
        simp at he
  · intro hM e he
    have hm : 0 < (masterNodes nodes).length := List.length_pos.mpr hM
    by_cases hw : 0 < (workerNodes nodes).length
    · rw [visEdges_case_mw hm hw] at he
      rcases mem_edgeProduct.mp he with ⟨m, hmm, w, hww, rfl⟩
      rcases mem_masterNodes.mp hmm with ⟨hmn, hmr⟩
      rcases mem_workerNodes.mp hww with ⟨hwn, hwr⟩
      exact ⟨⟨m, hmn, hmr, rfl⟩, ⟨w, hwn, hwr, rfl⟩⟩
    · rw [visEdges_case_none (fun h => hw h.2) (fun h => by omega)] at he
      simp at he
  · intro hM
    by_cases hw : 1 < (workerNodes nodes).length
    · exact Or.inr (visEdges_case_chain (by simp [hM]) hw)
    · exact Or.inl (visEdges_case_none (by simp [hM]) (fun h => hw h.2))

/-- C2 witness: the one edge of a concrete master/worker pair with
distinct names is not a self-edge. -/
theorem visEdges_tier_invariant_witness :
    ((VisEdge.mk "m1" "w1").efrom == (VisEdge.mk "m1" "w1").eto) = false := by
  have h := (visEdges_tier_invariant [sampleMaster, sampleWorker1] (by decide)).1
    (VisEdge.mk "m1" "w1") (by decide)
  exact beq_eq_false_iff_ne.mpr h

/-- C3: graph construction is deterministic and idempotent: two runs on the
same node list produce structurally identical graphs, with one vertex per
input node, identified by the node's name. -/
theorem buildGraph_deterministic (nodes : List Node) :
    buildGraph nodes = buildGraph nodes
    ∧ (buildGraph nodes).1.map VisNode.id = nodes.map Node.name
    ∧ (buildGraph nodes).1.length = nodes.length
    ∧ (buildGraph nodes).2 = visEdges nodes := by
  refine ⟨rfl, ?_, by simp [buildGraph, visNodes], rfl⟩
  simp only [buildGraph, visNodes, List.map_map]
  rfl

/-- C9: a node whose role is neither exactly `master` nor exactly `worker`
still gets its own vertex, belongs to neither partition, and is incident to
no edge. -/
theorem vertex_without_edges_for_other_roles (nodes : List Node) (n : Node)
    (hname : (nodes.map Node.name).Nodup) (hn : n ∈ nodes)
    (hm : n.role ≠ "master") (hw : n.role ≠ "worker") :
    (visNodes nodes).length = nodes.length
    ∧ mkVisNode n ∈ visNodes nodes
    ∧ n ∉ masterNodes nodes
    ∧ n ∉ workerNodes nodes
    ∧ ∀ e ∈ visEdges nodes, e.efrom ≠ n.name ∧ e.eto ≠ n.name := by
  refine ⟨by simp [visNodes], List.mem_map_of_mem mkVisNode hn,
    fun h => hm (mem_masterNodes.mp h).2,
    fun h => hw (mem_workerNodes.mp h).2, ?_⟩
  intro e he
  rcases visEdges_endpoint_roles nodes e he with ⟨⟨x, hx, hxr, hex⟩, ⟨y, hy, hyr, hey⟩⟩
  constructor
  · intro h
    have : x = n := List.inj_on_of_nodup_map hname hx hn (hex ▸ h)
    rcases hxr with h1 | h1
    · exact hm (this ▸ h1)
    · exact hw (this ▸ h1)
  · intro h
    have : y = n := List.inj_on_of_nodup_map hname hy hn (hey ▸ h)
    exact hw (this ▸ hyr)

/-- C9 witness: a node with the empty role among a master and a worker
still gets its vertex in the graph. -/
theorem vertex_without_edges_for_other_roles_witness :
    mkVisNode sampleOther ∈ visNodes [sampleMaster, sampleWorker1, sampleOther] := by
  have h := vertex_without_edges_for_other_roles
    [sampleMaster, sampleWorker1, sampleOther] sampleOther
    (by decide) (by decide) (by decide) (by decide)
  exact h.2.1

/-! ## Backend components, modelled from the spec

The Python backend (`cluster_analyzer.py`, `api.py`) is named by the
repository's README and start scripts but its source is not part of the
snapshot; the following definitions model it from the specification text. -/

/-- Modelled from the spec: the Role Classifier (§4.2) of the missing
Python backend.  `ClassifyRole(labels)` returns `master` when the label
mapping contains at least one configured control-plane marker key (any
value, including the empty string), `worker` otherwise. -/
def classifyRole (markers : List String) (labels : List (String × String)) : String :=
  if labels.any (fun kv => markers.contains kv.1) then "master" else "worker"

/-- A recorded per-resource-kind fetch failure (`PartialFailure{kind, cause}`). -/
structure PartialFailure where
  kind : String
  cause : String
  deriving Repr, DecidableEq

/-- The `AggregationFailed` error: every resource fetch failed; carries
the list of causes. -/
structure AggregationFailed where
  causes : List PartialFailure
  deriving Repr, DecidableEq

/-- The cluster snapshot: the aggregate of all fetched collections
(`ClusterData` in `types.ts`, nodes carrying merged metrics). -/
structure Snapshot where
  nodes : List Node
  nspaces : List Namespace
  pods : List Pod
  deployments : List Deployment
  services : List Service
  deriving Repr, DecidableEq

/-- The outcome of the six concurrent fetches handed to the aggregator:
one typed result slot per resource kind, metrics best-effort. -/
structure FetchResults where
  nodesR : Except String (List Node)
  podsR : Except String (List Pod)
  nspacesR : Except String (List Namespace)
  deploymentsR : Except String (List Deployment)
  servicesR : Except String (List Service)
  metricsR : Except String (List (String × NodeMetrics))

/-- Modelled from the spec (§4.1): a failed non-metrics fetch yields an
empty collection plus a recorded `PartialFailure{kind, cause}`. -/
def fetchColl (kind : String) : Except String (List α) → List α × List PartialFailure
  | .ok xs => (xs, [])
  | .error e => ([], [{ kind := kind, cause := e }])

/-- Whether a fetch result is a failure. -/
def isErr : Except String α → Bool
  | .ok _ => false
  | .error _ => true

/-- All five non-metrics resource fetches failed. -/
def allFailed (fr : FetchResults) : Bool :=
  isErr fr.nodesR && isErr fr.podsR && isErr fr.nspacesR
    && isErr fr.deploymentsR && isErr fr.servicesR

/-- Modelled from the spec (§4.1, §4.3): a failed metrics fetch silently
degrades to an empty metrics source. -/
def metricsMap : Except String (List (String × NodeMetrics)) → List (String × NodeMetrics)
  | .ok m => m
  | .error _ => []

/-- Modelled from the spec: the Metrics Merger (§4.3) of the missing
Python backend.  For each node, attach the metrics entry stored under the
node's name if one exists; otherwise leave the optional field as it is. -/
def mergeMetrics (nodes : List Node) (m : List (String × NodeMetrics)) : List Node :=
  nodes.map (fun n =>
    match m.lookup n.name with
    | some x => { n with metrics := some x }
    | none => n)

/-- Modelled from the spec: the Cluster Snapshot Aggregator (§4.1,
`BuildSnapshot`) of the missing Python backend.  Each failed non-metrics
fetch contributes an empty collection and a recorded partial failure; the
call escalates to `AggregationFailed` only when every resource fetch
failed; metrics failure is absorbed by the merger. -/
def BuildSnapshot (fr : FetchResults) :
    Except AggregationFailed (Snapshot × List PartialFailure) :=
  let failures :=
    (fetchColl "nodes" fr.nodesR).2 ++ (fetchColl "pods" fr.podsR).2
      ++ (fetchColl "namespaces" fr.nspacesR).2
      ++ (fetchColl "deployments" fr.deploymentsR).2
      ++ (fetchColl "services" fr.servicesR).2
  if allFailed fr then
    .error { causes := failures }
  else
    .ok ({ nodes := mergeMetrics (fetchColl "nodes" fr.nodesR).1 (metricsMap fr.metricsR)
           nspaces := (fetchColl "namespaces" fr.nspacesR).1
           pods := (fetchColl "pods" fr.podsR).1
           deployments := (fetchColl "deployments" fr.deploymentsR).1
           services := (fetchColl "services" fr.servicesR).1 }, failures)

/-- The detail-lookup error of §4.6/§7: the node name is unknown. -/
inductive DetailError where
  | NotFound
  deriving Repr, DecidableEq

/-- Modelled from the spec: the Detail Resolver (§4.6,
`ResolveNodeDetail`) of the missing Python backend, serving
`GET /api/nodes/<name>`.  It returns the stored node's full record with
the complete list of pods whose owning node equals the name attached, or
`NotFound` when no node with that identity exists. -/
def resolveNodeDetail (s : Snapshot) (nodeName : String) : Except DetailError Node :=
  match s.nodes.find? (fun n => n.name == nodeName) with
  | some n => .ok { n with
      pods_details := some (s.pods.filter (fun p => p.node == nodeName)) }
  | none => .error .NotFound

/-! ## Claim theorems about the backend components -/

lemma mergeMetrics_nil (nodes : List Node) : mergeMetrics nodes [] = nodes := by
  unfold mergeMetrics
  induction nodes with
  | nil => rfl
  | cons a t ih => exact congrArg (List.cons a) ih

/-- C5: the role classifier assigns `master` iff the label mapping
contains at least one configured marker key (any value), `worker`
otherwise; it is total, and the empty mapping classifies as `worker`. -/
theorem classifyRole_master_iff (markers : List String)
    (labels : List (String × String)) :
    (classifyRole markers labels = "master" ↔ ∃ kv ∈ labels, kv.1 ∈ markers)
    ∧ (classifyRole markers labels = "worker" ↔ ¬∃ kv ∈ labels, kv.1 ∈ markers)
    ∧ classifyRole markers [] = "worker" := by
  have hany : (labels.any (fun kv => markers.contains kv.1) = true)
      ↔ ∃ kv ∈ labels, kv.1 ∈ markers := by
    simp [List.any_eq_true]
  by_cases h : labels.any (fun kv => markers.contains kv.1)
  · have hc : classifyRole markers labels = "master" := by
      unfold classifyRole
      rw [if_pos h]
    have hex : ∃ kv ∈ labels, kv.1 ∈ markers := hany.mp h
    refine ⟨⟨fun _ => hex, fun _ => hc⟩, ⟨fun hw => ?_, fun hw => absurd hex hw⟩, rfl⟩
    rw [hc] at hw
    exact absurd hw (by decide)
  · have hc : classifyRole markers labels = "worker" := by
      unfold classifyRole
      rw [if_neg h]
    have hnex : ¬∃ kv ∈ labels, kv.1 ∈ markers := fun he => h (hany.mpr he)
    refine ⟨⟨fun hm2 => ?_, fun he => absurd he hnex⟩, ⟨fun _ => hnex, fun _ => hc⟩, rfl⟩
    rw [hc] at hm2
    exact absurd hm2 (by decide)

/-- C4: `BuildSnapshot` succeeds iff not every resource fetch failed;
each failed non-metrics fetch yields an empty collection and a recorded
`PartialFailure{kind, cause}`; total failure escalates to
`AggregationFailed` carrying all five causes. -/
theorem buildSnapshot_partial_failure_policy (fr : FetchResults) :
    ((∃ s f, BuildSnapshot fr = Except.ok (s, f)) ↔ allFailed fr = false)
    ∧ (∀ s f, BuildSnapshot fr = Except.ok (s, f) →
        (∀ c, fr.nodesR = .error c →
          s.nodes = [] ∧ PartialFailure.mk "nodes" c ∈ f)
        ∧ (∀ c, fr.podsR = .error c →
          s.pods = [] ∧ PartialFailure.mk "pods" c ∈ f)
        ∧ (∀ c, fr.nspacesR = .error c →
          s.nspaces = [] ∧ PartialFailure.mk "namespaces" c ∈ f)
        ∧ (∀ c, fr.deploymentsR = .error c →
          s.deployments = [] ∧ PartialFailure.mk "deployments" c ∈ f)
        ∧ (∀ c, fr.servicesR = .error c →
          s.services = [] ∧ PartialFailure.mk "services" c ∈ f))
    ∧ (allFailed fr = true →
        ∃ causes, BuildSnapshot fr = Except.error { causes := causes }
          ∧ causes.length = 5) := by
  refine ⟨?_, ?_, ?_⟩
  · by_cases h : allFailed fr <;> simp [BuildSnapshot, h]
  · intro s f hok
    by_cases h : allFailed fr
    · simp [BuildSnapshot, h] at hok
    · simp only [BuildSnapshot] at hok
      rw [if_neg h] at hok
      rw [Except.ok.injEq, Prod.mk.injEq] at hok
      obtain ⟨hs, hf⟩ := hok
      subst hs; subst hf
      refine ⟨fun c hc => ?_, fun c hc => ?_, fun c hc => ?_,
        fun c hc => ?_, fun c hc => ?_⟩ <;>
        simp [hc, fetchColl, mergeMetrics]
  · intro h
    have h5 := h
    rw [allFailed] at h5
    repeat rw [Bool.and_eq_true] at h5
    obtain ⟨⟨⟨⟨hn, hp⟩, hns⟩, hd⟩, hsv⟩ := h5
    obtain ⟨c1, h1⟩ : ∃ c, fr.nodesR = .error c := by
      cases hx : fr.nodesR <;> simp [hx, isErr] at hn ⊢
    obtain ⟨c2, h2⟩ : ∃ c, fr.podsR = .error c := by
      cases hx : fr.podsR <;> simp [hx, isErr] at hp ⊢
    obtain ⟨c3, h3⟩ : ∃ c, fr.nspacesR = .error c := by
      cases hx : fr.nspacesR <;> simp [hx, isErr] at hns ⊢
    obtain ⟨c4, h4⟩ : ∃ c, fr.deploymentsR = .error c := by
      cases hx : fr.deploymentsR <;> simp [hx, isErr] at hd ⊢
    obtain ⟨c5, h5'⟩ : ∃ c, fr.servicesR = .error c := by
      cases hx : fr.servicesR <;> simp [hx, isErr] at hsv ⊢
    have heq : BuildSnapshot fr = Except.error { causes :=
        [PartialFailure.mk "nodes" c1, PartialFailure.mk "pods" c2,
         PartialFailure.mk "namespaces" c3, PartialFailure.mk "deployments" c4,
         PartialFailure.mk "services" c5] } := by
      simp [BuildSnapshot, h, h1, h2, h3, h4, h5', fetchColl]
    exact ⟨_, heq, rfl⟩

/-- A fetch outcome in which only the pod fetch (and the best-effort
metrics fetch) failed. -/
def sampleFetch : FetchResults :=
  { nodesR := .ok [sampleWorker1], podsR := .error "boom",
    nspacesR := .ok [], deploymentsR := .ok [], servicesR := .ok [],
    metricsR := .error "no metrics endpoint" }

/-- C4 witness: with the pod fetch failed and the node fetch succeeded,
`BuildSnapshot` still succeeds. -/
theorem buildSnapshot_partial_failure_policy_witness :
    (BuildSnapshot sampleFetch).isOk = true := by
  have h := (buildSnapshot_partial_failure_policy sampleFetch).1.mpr (by decide)
  obtain ⟨s, f, hok⟩ := h
  rw [hok]
  rfl

/-- The presentation guard of `NodeDetail.tsx` lines 133-140: the
`Current Usage` row is rendered exactly when `node.metrics` is present. -/
def showsUsageRow (n : Node) : Bool := n.metrics.isSome

/-- C6: when the metrics fetch fails, `BuildSnapshot` still succeeds with
every fetched node present and its optional metrics field unset, and the
detail view renders the usage row only when metrics are present. -/
theorem metrics_failure_harmless (fr : FetchResults) (nodes : List Node)
    (e : String) (hn : fr.nodesR = .ok nodes) (hm : fr.metricsR = .error e)
    (hfresh : ∀ n ∈ nodes, n.metrics = none) :
    ∃ s f, BuildSnapshot fr = Except.ok (s, f)
      ∧ s.nodes = nodes
      ∧ (∀ n ∈ s.nodes, n.metrics = none)
      ∧ (∀ n ∈ s.nodes, showsUsageRow n = false) := by
  have hne : ¬allFailed fr = true := by
    simp [allFailed, hn, isErr]
  have hmerge : mergeMetrics (fetchColl "nodes" fr.nodesR).1 (metricsMap fr.metricsR)
      = nodes := by
    rw [hn, hm]
    exact mergeMetrics_nil nodes
  have hok : BuildSnapshot fr = Except.ok
      ({ nodes := nodes
         nspaces := (fetchColl "namespaces" fr.nspacesR).1
         pods := (fetchColl "pods" fr.podsR).1
         deployments := (fetchColl "deployments" fr.deploymentsR).1
         services := (fetchColl "services" fr.servicesR).1 },
       (fetchColl "nodes" fr.nodesR).2 ++ (fetchColl "pods" fr.podsR).2
         ++ (fetchColl "namespaces" fr.nspacesR).2
         ++ (fetchColl "deployments" fr.deploymentsR).2
         ++ (fetchColl "services" fr.servicesR).2) := by
    simp only [BuildSnapshot]
    rw [if_neg hne, hmerge]
  refine ⟨_, _, hok, rfl, fun n hmem => hfresh n hmem, fun n hmem => ?_⟩
  simp [showsUsageRow, hfresh n hmem]

/-- C6 witness: the concrete fetch outcome with a failed metrics fetch
yields a snapshot whose single node has no metrics. -/
theorem metrics_failure_harmless_witness :
    ∃ s f, BuildSnapshot sampleFetch = Except.ok (s, f)
      ∧ s.nodes = [sampleWorker1]
      ∧ (∀ n ∈ s.nodes, n.metrics = none)
      ∧ (∀ n ∈ s.nodes, showsUsageRow n = false) :=
  metrics_failure_harmless sampleFetch [sampleWorker1] "no metrics endpoint"
    rfl rfl (by decide)

/-- C7: detail resolution either returns the full stored record of the
named node with the complete list of pods owned by that name attached, or
fails with `NotFound` exactly when no node with that name exists; no
other outcome is possible. -/
theorem resolveNodeDetail_total_or_notfound (s : Snapshot) (nodeName : String) :
    (∀ d, resolveNodeDetail s nodeName = Except.ok d →
      ∃ n0 ∈ s.nodes, n0.name = nodeName
        ∧ d = { n0 with pods_details := some (s.pods.filter (fun p => p.node == nodeName)) }
        ∧ d.pods_details = some (s.pods.filter (fun p => p.node == nodeName)))
    ∧ (resolveNodeDetail s nodeName = Except.error DetailError.NotFound
        ↔ ∀ n ∈ s.nodes, n.name ≠ nodeName)
    ∧ ((∃ d, resolveNodeDetail s nodeName = Except.ok d)
        ∨ resolveNodeDetail s nodeName = Except.error DetailError.NotFound) := by
  refine ⟨?_, ?_, ?_⟩
  · intro d hd
    unfold resolveNodeDetail at hd
    cases hfind : s.nodes.find? (fun n => n.name == nodeName) with
    | none => rw [hfind] at hd; exact absurd hd (by simp)
    | some n0 =>
      rw [hfind] at hd
      rw [Except.ok.injEq] at hd
      have hmem : n0 ∈ s.nodes := List.mem_of_find?_eq_some hfind
      have hp0 := List.find?_some hfind
      have hp : (n0.name == nodeName) = true := hp0
      exact ⟨n0, hmem, by simpa using hp, hd.symm, by rw [← hd]⟩
  · unfold resolveNodeDetail
    cases hfind : s.nodes.find? (fun n => n.name == nodeName) with
    | none =>
      simp only [List.find?_eq_none] at hfind
      simpa using hfind
    | some n0 =>
      have hmem : n0 ∈ s.nodes := List.mem_of_find?_eq_some hfind
      have hp0 := List.find?_some hfind
      have hp : (n0.name == nodeName) = true := hp0
      constructor
      · intro hab; exact absurd hab (by simp)
      · intro hall
        exact absurd (by simpa using hp) (hall n0 hmem)
  · unfold resolveNodeDetail
    cases hfind : s.nodes.find? (fun n => n.name == nodeName) with
    | none => exact Or.inr rfl
    | some n0 => exact Or.inl ⟨_, rfl⟩

/-- A concrete snapshot: one worker node and one pod owned by it. -/
def samplePod : Pod :=
  { name := "p1", nspace := "default", uid := "uid-p1", node := "w1",
    status := "Running", ip := "10.0.0.1", labels := [],
    containers := [{ name := "c1", image := "img", ready := true }],
    restart_count := 0 }

def sampleSnap : Snapshot :=
  { nodes := [sampleWorker1], nspaces := [], pods := [samplePod],
    deployments := [], services := [] }

/-- C7 witness: looking up an unknown name in the concrete snapshot fails
with `NotFound`. -/
theorem resolveNodeDetail_total_or_notfound_witness :
    resolveNodeDetail sampleSnap "no-such-node" = Except.error DetailError.NotFound :=
  (resolveNodeDetail_total_or_notfound sampleSnap "no-such-node").2.1.mpr (by decide)

/-! ## Topology view state machine (from `ClusterTopology.tsx`) -/

/-- The React state of `ClusterTopology` (lines 15-18): `loading`,
`error`, `nodes`, `refreshing`. -/
structure TopoState where
  loading : Bool
  error : Option String
  nodes : List Node
  refreshing : Bool
  deriving Repr, DecidableEq

/-- The initial state of `ClusterTopology` (useState initialisers). -/
def initialTopoState : TopoState :=
  { loading := true, error := none, nodes := [], refreshing := false }

/-- Net effect of a successful `loadClusterData` call (lines 26-40):
`error` cleared, `nodes` replaced, `loading` and `refreshing` false. -/
def loadSuccess (s : TopoState) (data : List Node) : TopoState :=
  { s with refreshing := false, loading := false, error := none, nodes := data }

/-- Net effect of a failed `loadClusterData` call (lines 26-40): `error`
set to the message, `nodes` untouched, `loading` and `refreshing` false. -/
def loadFailure (s : TopoState) (msg : String) : TopoState :=
  { s with refreshing := false, loading := false, error := some msg }

/-- What `ClusterTopology` renders. -/
inductive TopoView where
  | loadingView
  | errorView (msg : String)
  | emptyView
  | graphView (g : List VisNode × List VisEdge)
  deriving Repr, DecidableEq

/-- The render logic of `ClusterTopology.tsx` lines 264-417: early return
on `loading`, then on `error`, then on an empty node list, else the
topology. -/
def renderTopo (s : TopoState) : TopoView :=
  if s.loading then .loadingView
  else
    match s.error with
    | some msg => .errorView msg
    | none => if s.nodes.length = 0 then .emptyView else .graphView (buildGraph s.nodes)

/-- C8 counterexample: after loading one node and then failing a refresh,
the stored node list is still non-empty, yet the component renders only
the error message, not the topology. -/
theorem topology_error_replaces_view_counterexample :
    renderTopo (loadFailure (loadSuccess initialTopoState [sampleWorker1]) "boom")
        = TopoView.errorView "boom"
    ∧ (loadFailure (loadSuccess initialTopoState [sampleWorker1]) "boom").nodes
        = [sampleWorker1]
    ∧ (renderTopo (loadFailure (loadSuccess initialTopoState [sampleWorker1]) "boom")
        == TopoView.graphView
            (buildGraph
              (loadFailure (loadSuccess initialTopoState [sampleWorker1]) "boom").nodes))
        = false := by
  refine ⟨rfl, rfl, ?_⟩
  decide

/-- C8 amended: a fetch failure preserves the stored node list, but the
render is the error view alone whenever an error is set — held node data
is not rendered alongside it. -/
theorem topology_error_view_after_failure (s : TopoState) (msg : String) :
    (loadFailure s msg).nodes = s.nodes
    ∧ renderTopo (loadFailure s msg) = TopoView.errorView msg := by
  exact ⟨rfl, rfl⟩

/-! ## Node-detail panel state machine (from `NodeDetail.tsx`) -/

/-- The React state of `NodeDetail` (lines 12-14): `node`, `loading`,
`error`. -/
structure DetailState where
  node : Option Node
  loading : Bool
  error : Option String
  deriving Repr, DecidableEq

/-- The initial state of `NodeDetail` (useState initialisers). -/
def initialDetailState : DetailState :=
  { node := none, loading := false, error := none }

/-- Effect of the selection becoming null (lines 17-20): the stored node
is cleared. -/
def selectNone (s : DetailState) : DetailState :=
  { s with node := none }

/-- Start of `loadNodeDetails` (lines 23-24): `loading` set, `error`
cleared, stored node untouched. -/
def detailLoadStart (s : DetailState) : DetailState :=
  { s with loading := true, error := none }

/-- Successful end of `loadNodeDetails` (lines 26-27, 31): the fetched
node is stored, `loading` cleared. -/
def detailLoadSuccess (s : DetailState) (d : Node) : DetailState :=
  { s with node := some d, loading := false }

/-- Failed end of `loadNodeDetails` (lines 28-31): `error` set, `loading`
cleared, stored node untouched. -/
def detailLoadFailure (s : DetailState) (msg : String) : DetailState :=
  { s with error := some msg, loading := false }

/-- `NodeDetail.tsx` line 51: the full node-details block is rendered
exactly when a node is stored (independently of the error banner). -/
def rendersNodeContent (s : DetailState) : Bool := s.node.isSome

/-- `NodeDetail.tsx` line 49: the error banner is rendered exactly when
an error is stored. -/
def rendersDetailError (s : DetailState) : Bool := s.error.isSome

/-- C10: a failed detail fetch keeps the previously stored node: after
node A is loaded, a selection change whose fetch fails sets the error yet
still renders A's full details; failure transitions never change the
stored node, which is cleared only by a null selection. -/
theorem detail_failure_keeps_previous_node (s : DetailState) (a : Node)
    (msg : String) (h : s.node = some a) :
    (detailLoadFailure (detailLoadStart s) msg).node = some a
    ∧ (detailLoadFailure (detailLoadStart s) msg).error = some msg
    ∧ rendersNodeContent (detailLoadFailure (detailLoadStart s) msg) = true
    ∧ rendersDetailError (detailLoadFailure (detailLoadStart s) msg) = true
    ∧ (∀ s2 msg2, (detailLoadFailure s2 msg2).node = s2.node)
    ∧ (∀ s2, (selectNone s2).node = none) := by
  refine ⟨h, rfl, ?_, rfl, fun s2 msg2 => rfl, fun s2 => rfl⟩
  simp [rendersNodeContent, detailLoadFailure, detailLoadStart, h]

/-- C10 witness: with worker `w1` loaded, a failing fetch keeps `w1`
stored and rendered while showing the error. -/
theorem detail_failure_keeps_previous_node_witness :
    (detailLoadFailure (detailLoadStart
        (detailLoadSuccess (detailLoadStart initialDetailState) sampleWorker1))
        "fetch failed").node = some sampleWorker1 :=
  (detail_failure_keeps_previous_node
    (detailLoadSuccess (detailLoadStart initialDetailState) sampleWorker1)
    sampleWorker1 "fetch failed" rfl).1
